import Mathlib

/-!
Verification of the binary codec layer (`encoders.py`, `data_types.py`).

Byte strings are modelled as `List Nat` with entries in `[0, 256)`.  Python
integers are modelled as `Int` (arbitrary precision, two's complement bitwise
semantics via `Int.land` / `Int.lor` / `~~~` / `<<<` / `>>>`).  Code paths that
raise a Python exception are modelled with `Except String`, carrying the
exception text.
-/

/-- Decidable equality for `Except`, so concrete codec runs can be settled by
`decide`. -/
instance exceptDecEq {e a : Type} [DecidableEq e] [DecidableEq a] :
    DecidableEq (Except e a) := fun x y =>
  match x, y with
  | .error u, .error v => decidable_of_iff (u = v) (by simp)
  | .error _, .ok _ => isFalse (by simp)
  | .ok _, .error _ => isFalse (by simp)
  | .ok u, .ok v => decidable_of_iff (u = v) (by simp)

/-- `Nat.ldiff` written with kernel-reducible operations, so that bitwise
values can be computed by `decide`. -/
theorem ldiff_eq_land_xor (m n : Nat) : Nat.ldiff m n = m &&& (m ^^^ n) :=
  Nat.eq_of_testBit_eq fun i => by
    simp only [Nat.testBit_ldiff, Nat.testBit_land, Nat.testBit_xor]
    cases m.testBit i <;> cases n.testBit i <;> rfl

/-- Big-endian unsigned value of a byte string:
`int.from_bytes(bs, byteorder="big", signed=False)`. -/
def natFromBytesBE (bs : List Nat) : Nat :=
  bs.foldl (fun acc b => acc * 256 + b) 0

/-- `int.from_bytes(bs, byteorder="big", signed=True)`: two's complement over
`8 * len(bs)` bits; the empty byte string decodes to `0`. -/
def intFromBytesSigned (bs : List Nat) : Int :=
  if natFromBytesBE bs < 2 ^ (8 * bs.length - 1) then (natFromBytesBE bs : Int)
  else (natFromBytesBE bs : Int) - 2 ^ (8 * bs.length)

/-- The `n`-byte big-endian byte string of `u % 256^n`. -/
def natToBytesBE : Nat → Nat → List Nat
  | 0, _ => []
  | n + 1, u => natToBytesBE n (u / 256) ++ [u % 256]

/-- `v.to_bytes(n, byteorder="big", signed=True)`: raises OverflowError when
`v` is outside the signed `n`-byte range. -/
def intToBytesSigned (n : Nat) (v : Int) : Except String (List Nat) :=
  if -(2 ^ (8 * n - 1) : Int) ≤ v ∧ v < 2 ^ (8 * n - 1) then
    .ok (natToBytesBE n (v.emod (2 ^ (8 * n))).toNat)
  else .error "OverflowError: int too big to convert"

/-- `v.to_bytes(n, byteorder="big", signed=False)`: raises OverflowError when
`v` is outside the unsigned `n`-byte range. -/
def intToBytesUnsigned (n : Nat) (v : Int) : Except String (List Nat) :=
  if 0 ≤ v ∧ v < 2 ^ (8 * n) then .ok (natToBytesBE n v.toNat)
  else .error "OverflowError: int too big to convert"

/-- `EncoderParseResult` from `encoders.py`: the decoded value together with
the reported byte count. -/
structure EncoderParseResult (T : Type) where
  value : T
  size : Nat
deriving Repr, DecidableEq

namespace BooleanEncoder

/-- `BooleanEncoder.parse`: `bool(data[0])`; indexing an empty buffer raises
IndexError. -/
def parse (data : List Nat) : Except String (EncoderParseResult Bool) :=
  match data with
  | [] => .error "IndexError: index out of range"
  | b :: _ => .ok { value := b != 0, size := 1 }

/-- `BooleanEncoder.serialize`: `value.to_bytes(1)`. -/
def serialize (value : Bool) : List Nat :=
  natToBytesBE 1 (if value then 1 else 0)

end BooleanEncoder

namespace ByteEncoder

/-- `ByteEncoder.parse`: `int.from_bytes(data[:1], signed=True)`, size 1. -/
def parse (data : List Nat) : EncoderParseResult Int :=
  { value := intFromBytesSigned (data.take 1), size := 1 }

/-- `ByteEncoder.serialize`. -/
def serialize (value : Int) : Except String (List Nat) :=
  if ¬(-128 ≤ value ∧ value ≤ 127) then
    .error s!"ByteEncoder: Serialization error: {value} is not in range [-128, 127]"
  else intToBytesSigned 1 value

end ByteEncoder

namespace UnsignedByteEncoder

/-- `UnsignedByteEncoder.parse`: `int.from_bytes(data[:1], signed=False)`. -/
def parse (data : List Nat) : EncoderParseResult Int :=
  { value := (natFromBytesBE (data.take 1) : Int), size := 1 }

/-- `UnsignedByteEncoder.serialize`. -/
def serialize (value : Int) : Except String (List Nat) :=
  if ¬(0 ≤ value ∧ value ≤ 255) then
    .error s!"UnsignedByteEncoder: Serialization Error: {value} is not in range [0, 255]"
  else intToBytesUnsigned 1 value

end UnsignedByteEncoder

namespace ShortEncoder

/-- `ShortEncoder.parse`: `int.from_bytes(data[:2], byteorder="big",
signed=True)`, size 2. -/
def parse (data : List Nat) : EncoderParseResult Int :=
  { value := intFromBytesSigned (data.take 2), size := 2 }

/-- `ShortEncoder.serialize`.  The upper bound of the range check in the
source reads `23767` while its error message reads `32767`. -/
def serialize (value : Int) : Except String (List Nat) :=
  if ¬(-32768 ≤ value ∧ value ≤ 23767) then
    .error s!"ShortEncoder: Serialization error: {value} is not in range [-32768, 32767]"
  else intToBytesSigned 2 value

end ShortEncoder

namespace UnsignedShortEncoder

/-- `UnsignedShortEncoder.parse`. -/
def parse (data : List Nat) : EncoderParseResult Int :=
  { value := (natFromBytesBE (data.take 2) : Int), size := 2 }

/-- `UnsignedShortEncoder.serialize`. -/
def serialize (value : Int) : Except String (List Nat) :=
  if ¬(0 ≤ value ∧ value ≤ 65535) then
    .error s!"UnsignedShortEncoder: Serialization error {value} is not in range [0, 65535]"
  else intToBytesUnsigned 2 value

end UnsignedShortEncoder

namespace IntEncoder

/-- `IntEncoder.parse`: `int.from_bytes(data[:4], byteorder="big",
signed=True)`, size 4. -/
def parse (data : List Nat) : EncoderParseResult Int :=
  { value := intFromBytesSigned (data.take 4), size := 4 }

/-- `IntEncoder.serialize`. -/
def serialize (value : Int) : Except String (List Nat) :=
  if ¬(-2147483648 ≤ value ∧ value ≤ 2147483647) then
    .error s!"IntEncoder: Serialization error: {value} is not in range [-2147483648, 2147483647]"
  else intToBytesSigned 4 value

end IntEncoder

namespace LongEncoder

/-- `LongEncoder.parse`: `int.from_bytes(data[:8], byteorder="big",
signed=True)`, size 8. -/
def parse (data : List Nat) : EncoderParseResult Int :=
  { value := intFromBytesSigned (data.take 8), size := 8 }

/-- `LongEncoder.serialize`. -/
def serialize (value : Int) : Except String (List Nat) :=
  if ¬(-9223372036854775808 ≤ value ∧ value ≤ 9223372036854775807) then
    .error s!"LongEncoder: Serialization error: {value} is not in range [-9223372036854775808, 9223372036854775807]"
  else intToBytesSigned 8 value

end LongEncoder

namespace FloatEncoder

/-- `FloatEncoder.parse`: `struct.unpack(">f", data)` demands a buffer of
exactly 4 bytes and raises `struct.error` otherwise.  The decoded IEEE-754
binary32 value is represented here by its 32-bit big-endian bit pattern. -/
def parse (data : List Nat) : Except String (EncoderParseResult Nat) :=
  if data.length ≠ 4 then
    .error "struct.error: unpack requires a buffer of 4 bytes"
  else .ok { value := natFromBytesBE data, size := 4 }

end FloatEncoder

/-! ### Python bitwise operations on arbitrary-precision integers

`pyAnd`, `pyOr` and `pyShl` compute Python's `&`, `|` and `<<` on `Int`.
They are definitionally kernel-reducible (so concrete codec runs can be
settled by `decide`) and are proved equal to Mathlib's two's-complement
`Int.land`, `Int.lor` and `<<<`, which pins down their semantics. -/

/-- Python's `&` on arbitrary-precision integers (two's complement). -/
def pyAnd : Int → Int → Int
  | .ofNat m, .ofNat n => .ofNat (m &&& n)
  | .ofNat m, .negSucc n => .ofNat (m &&& (m ^^^ n))
  | .negSucc m, .ofNat n => .ofNat (n &&& (n ^^^ m))
  | .negSucc m, .negSucc n => .negSucc (m ||| n)

theorem pyAnd_eq_land : ∀ a b : Int, pyAnd a b = Int.land a b := by
  intro a b
  cases a <;> cases b <;> simp [pyAnd, Int.land, ldiff_eq_land_xor]

/-- Python's `|` on arbitrary-precision integers (two's complement). -/
def pyOr : Int → Int → Int
  | .ofNat m, .ofNat n => .ofNat (m ||| n)
  | .ofNat m, .negSucc n => .negSucc (n &&& (n ^^^ m))
  | .negSucc m, .ofNat n => .negSucc (m &&& (m ^^^ n))
  | .negSucc m, .negSucc n => .negSucc (m &&& n)

theorem pyOr_eq_lor : ∀ a b : Int, pyOr a b = Int.lor a b := by
  intro a b
  cases a <;> cases b <;> simp [pyOr, Int.lor, ldiff_eq_land_xor]

/-- Python's `<<` on arbitrary-precision integers. -/
def pyShl (a : Int) (n : Nat) : Int :=
  match a with
  | .ofNat m => .ofNat (m <<< n)
  | .negSucc m => .negSucc ((m + 1) <<< n - 1)

theorem pyShl_eq_shiftLeft (a : Int) (n : Nat) : pyShl a n = a <<< (n : Int) := by
  cases a with
  | ofNat m =>
      show Int.ofNat (m <<< n) = Int.ofNat (Nat.shiftLeft' false m n)
      rw [Nat.shiftLeft'_false]
  | negSucc m =>
      show Int.negSucc ((m + 1) <<< n - 1) = Int.negSucc (Nat.shiftLeft' true m n)
      have h := Nat.shiftLeft'_tt_eq_mul_pow m n
      rw [Nat.shiftLeft_eq_mul_pow]
      exact congrArg Int.negSucc (by omega)

/-! ### Arithmetic helper lemmas for the variable-length integer codecs -/

theorem nat_land_xor127 : ∀ m, m < 128 → m &&& (m ^^^ 127) = 0 := by decide

/-- A nonnegative integer below `128` has no bits above the low seven, so
Python's `value & ~0x7f` is zero there. -/
theorem int_land_not127_of_lt {v : Int} (h0 : 0 ≤ v) (h : v < 128) :
    Int.land v (~~~(127 : Int)) = 0 := by
  obtain ⟨m, rfl⟩ := Int.eq_ofNat_of_zero_le h0
  show Int.land (Int.ofNat m) (Int.negSucc 127) = 0
  show (Nat.ldiff m 127 : Int) = 0
  rw [ldiff_eq_land_xor]
  exact_mod_cast nat_land_xor127 m (by exact_mod_cast h)

/-- Arithmetic right shift of a nonnegative integer is division. -/
theorem int_shiftRight_nonneg_eq {v : Int} (h0 : 0 ≤ v) (n : Nat) :
    v >>> n = v / 2 ^ n := by
  obtain ⟨m, rfl⟩ := Int.eq_ofNat_of_zero_le h0
  show Int.ofNat (m >>> n) = _
  rw [Nat.shiftRight_eq_div_pow]
  norm_cast

namespace VarIntEncoder

def SEGMENT_BITS : Int := 0x7f
def CONTINUE_BIT : Int := 0x80

/-- The `while True` loop of `VarIntEncoder.parse`.  The first argument is
the still-unread suffix `data[size:]`; each iteration reads one byte through
`ByteEncoder.parse`, ORs its low seven bits shifted by `position` into the
accumulator, stops on a clear continuation bit, and raises once `position`
(incremented by 7 per continuation byte) reaches 32.  When the suffix is
empty, `ByteEncoder.parse` decodes `0`, whose continuation bit is clear, so
the loop exits; that case is split out to make the recursion structural. -/
def parseGo : List Nat → Int → Nat → Nat → Except String (EncoderParseResult Int)
  | [], value, position, size =>
      .ok { value := pyOr value (pyShl (pyAnd (ByteEncoder.parse []).value SEGMENT_BITS) position),
            size := size }
  | rest@(_ :: t), value, position, size =>
      let current_byte := (ByteEncoder.parse rest).value
      let value' := pyOr value (pyShl (pyAnd current_byte SEGMENT_BITS) position)
      if pyAnd current_byte CONTINUE_BIT = 0 then
        .ok { value := value', size := size }
      else if 32 ≤ position + 7 then
        .error "VarIntEncoder: Parsing error: VarInt is too big"
      else
        parseGo t value' (position + 7) (size + 1)

/-- `VarIntEncoder.parse`: starts the loop with `value = 0`, `position = 0`,
`size = 0`. -/
def parse (data : List Nat) : Except String (EncoderParseResult Int) :=
  parseGo data 0 0 0

/-- The `while (value & ~SEGMENT_BITS)` loop of `VarIntEncoder.serialize`:
emits `(value & SEGMENT_BITS) | CONTINUE_BIT` through `ByteEncoder.serialize`
(whose own range check can raise), then shrinks `value` to
`(value % 0x10000000) >> 7`. -/
def serializeGo (value : Int) (data : List Nat) : Except String (List Nat) :=
  if h : pyAnd value (~~~SEGMENT_BITS) ≠ 0 then
    match ByteEncoder.serialize (pyOr (pyAnd value SEGMENT_BITS) CONTINUE_BIT) with
    | .error e => .error e
    | .ok b => serializeGo ((value % 0x10000000) >>> (7 : Nat)) (data ++ b)
  else
    match ByteEncoder.serialize value with
    | .error e => .error e
    | .ok b => .ok (data ++ b)
termination_by if value < 0 then 2 ^ 28 else value.toNat
decreasing_by
  have he0 : 0 ≤ value % 0x10000000 := Int.emod_nonneg value (by norm_num)
  have helt : value % 0x10000000 < 0x10000000 := Int.emod_lt_of_pos value (by norm_num)
  have hs : (value % 0x10000000) >>> (7 : Nat) = (value % 0x10000000) / 2 ^ 7 :=
    int_shiftRight_nonneg_eq he0 7
  rcases lt_or_le value 0 with hneg | hpos
  · rw [if_pos hneg, if_neg (by omega : ¬ (value % 0x10000000) >>> (7 : Nat) < 0)]
    omega
  · have h128 : 128 ≤ value := by
      by_contra hc
      push_neg at hc
      refine h ?_
      rw [pyAnd_eq_land]
      unfold SEGMENT_BITS
      exact int_land_not127_of_lt hpos hc
    rw [if_neg (not_lt.mpr hpos), if_neg (by omega : ¬ (value % 0x10000000) >>> (7 : Nat) < 0)]
    omega

/-- `VarIntEncoder.serialize`: runs the loop with an empty output buffer. -/
def serialize (value : Int) : Except String (List Nat) :=
  serializeGo value []

end VarIntEncoder

namespace VarLongEncoder

def SEGMENT_BITS : Int := 0x7f
def CONTINUE_BIT : Int := 0x80

/-- The `while True` loop of `VarLongEncoder.parse`; identical to the VarInt
loop except that it raises once `position` reaches 64. -/
def parseGo : List Nat → Int → Nat → Nat → Except String (EncoderParseResult Int)
  | [], value, position, size =>
      .ok { value := pyOr value (pyShl (pyAnd (ByteEncoder.parse []).value SEGMENT_BITS) position),
            size := size }
  | rest@(_ :: t), value, position, size =>
      let current_byte := (ByteEncoder.parse rest).value
      let value' := pyOr value (pyShl (pyAnd current_byte SEGMENT_BITS) position)
      if pyAnd current_byte CONTINUE_BIT = 0 then
        .ok { value := value', size := size }
      else if 64 ≤ position + 7 then
        .error "VarLongEncoder: Parsing error: VarLong is too big"
      else
        parseGo t value' (position + 7) (size + 1)

/-- `VarLongEncoder.parse`. -/
def parse (data : List Nat) : Except String (EncoderParseResult Int) :=
  parseGo data 0 0 0

/-- The serialize loop of `VarLongEncoder`, reducing modulo
`0x10000000000000000`. -/
def serializeGo (value : Int) (data : List Nat) : Except String (List Nat) :=
  if h : pyAnd value (~~~SEGMENT_BITS) ≠ 0 then
    match ByteEncoder.serialize (pyOr (pyAnd value SEGMENT_BITS) CONTINUE_BIT) with
    | .error e => .error e
    | .ok b => serializeGo ((value % 0x10000000000000000) >>> (7 : Nat)) (data ++ b)
  else
    match ByteEncoder.serialize value with
    | .error e => .error e
    | .ok b => .ok (data ++ b)
termination_by if value < 0 then 2 ^ 64 else value.toNat
decreasing_by
  have he0 : 0 ≤ value % 0x10000000000000000 := Int.emod_nonneg value (by norm_num)
  have helt : value % 0x10000000000000000 < 0x10000000000000000 :=
    Int.emod_lt_of_pos value (by norm_num)
  have hs : (value % 0x10000000000000000) >>> (7 : Nat) =
      (value % 0x10000000000000000) / 2 ^ 7 :=
    int_shiftRight_nonneg_eq he0 7
  rcases lt_or_le value 0 with hneg | hpos
  · rw [if_pos hneg,
      if_neg (by omega : ¬ (value % 0x10000000000000000) >>> (7 : Nat) < 0)]
    omega
  · have h128 : 128 ≤ value := by
      by_contra hc
      push_neg at hc
      refine h ?_
      rw [pyAnd_eq_land]
      unfold SEGMENT_BITS
      exact int_land_not127_of_lt hpos hc
    rw [if_neg (not_lt.mpr hpos),
      if_neg (by omega : ¬ (value % 0x10000000000000000) >>> (7 : Nat) < 0)]
    omega

/-- `VarLongEncoder.serialize`. -/
def serialize (value : Int) : Except String (List Nat) :=
  serializeGo value []

end VarLongEncoder

/-! ### UTF-8, strings, identifiers, positions -/

/-- UTF-8 encoding of one Unicode scalar value (as produced by Python's
`str.encode("utf-8")` for one character). -/
def utf8EncodeChar (c : Char) : List Nat :=
  let n := c.toNat
  if n < 0x80 then [n]
  else if n < 0x800 then [0xC0 + n / 64, 0x80 + n % 64]
  else if n < 0x10000 then [0xE0 + n / 4096, 0x80 + n / 64 % 64, 0x80 + n % 64]
  else [0xF0 + n / 262144, 0x80 + n / 4096 % 64, 0x80 + n / 64 % 64, 0x80 + n % 64]

/-- `s.encode("utf-8")`. -/
def utf8Encode (s : String) : List Nat :=
  (s.toList.map utf8EncodeChar).flatten

/-- Strict UTF-8 decoding of a whole byte string, as Python's
`bytes.decode("utf-8")`: rejects bad lead bytes, bad continuation bytes,
truncated sequences, overlong encodings and surrogates, and returns the
character list otherwise. -/
def utf8DecodeList : List Nat → Option (List Char)
  | [] => some []
  | b :: rest =>
    if b < 0x80 then
      (utf8DecodeList rest).map (fun cs => Char.ofNat b :: cs)
    else if 0xC2 ≤ b ∧ b ≤ 0xDF then
      match rest with
      | c1 :: rest2 =>
        if 0x80 ≤ c1 ∧ c1 ≤ 0xBF then
          (utf8DecodeList rest2).map
            (fun cs => Char.ofNat ((b - 0xC0) * 64 + (c1 - 0x80)) :: cs)
        else none
      | [] => none
    else if 0xE0 ≤ b ∧ b ≤ 0xEF then
      match rest with
      | c1 :: c2 :: rest2 =>
        if (if b = 0xE0 then 0xA0 ≤ c1 ∧ c1 ≤ 0xBF
            else if b = 0xED then 0x80 ≤ c1 ∧ c1 ≤ 0x9F
            else 0x80 ≤ c1 ∧ c1 ≤ 0xBF) ∧ (0x80 ≤ c2 ∧ c2 ≤ 0xBF) then
          (utf8DecodeList rest2).map
            (fun cs => Char.ofNat ((b - 0xE0) * 4096 + (c1 - 0x80) * 64 + (c2 - 0x80)) :: cs)
        else none
      | _ => none
    else if 0xF0 ≤ b ∧ b ≤ 0xF4 then
      match rest with
      | c1 :: c2 :: c3 :: rest2 =>
        if (if b = 0xF0 then 0x90 ≤ c1 ∧ c1 ≤ 0xBF
            else if b = 0xF4 then 0x80 ≤ c1 ∧ c1 ≤ 0x8F
            else 0x80 ≤ c1 ∧ c1 ≤ 0xBF) ∧ (0x80 ≤ c2 ∧ c2 ≤ 0xBF) ∧ (0x80 ≤ c3 ∧ c3 ≤ 0xBF) then
          (utf8DecodeList rest2).map
            (fun cs =>
              Char.ofNat ((b - 0xF0) * 262144 + (c1 - 0x80) * 4096 + (c2 - 0x80) * 64 + (c3 - 0x80)) :: cs)
        else none
      | _ => none
    else none

namespace StringEncoder

/-- The inner `for c_len in range(1, 4)` loop of `StringEncoder.parse`: try to
decode `data[i:i+1]`, `data[i:i+2]`, `data[i:i+3]` and keep the first slice
that decodes, together with its length. -/
def tryDecode (data : List Nat) (i : Nat) : Option (List Char × Nat) :=
  match utf8DecodeList ((data.drop i).take 1) with
  | some c => some (c, 1)
  | none =>
    match utf8DecodeList ((data.drop i).take 2) with
    | some c => some (c, 2)
    | none =>
      match utf8DecodeList ((data.drop i).take 3) with
      | some c => some (c, 3)
      | none => none

/-- The `while len(value) < length` loop of `StringEncoder.parse`.  When no
1-, 2- or 3-byte slice at `i` decodes, or when the decoded slice is empty
(which happens exactly when `i` is past the end of `data`), the Python loop
makes no progress toward `len(value) < length` and never exits; that
divergence is represented by an explicit error result. -/
def parseChars (data : List Nat) (length : Nat) (value : List Char) (i : Nat) :
    Except String (List Char) :=
  if hlt : value.length < length then
    match tryDecode data i with
    | none => .error "StringEncoder.parse does not terminate on this input"
    | some (c, c_len) =>
      if hc : c = [] then .error "StringEncoder.parse does not terminate on this input"
      else parseChars data length (value ++ c) (i + c_len)
  else .ok value
termination_by length - value.length
decreasing_by
  have := List.length_pos.mpr hc
  simp only [List.length_append]
  omega

/-- Fuel-indexed structural twin of `parseChars`, so concrete runs reduce in
the kernel.  `parseChars_eq_parseCharsGo` proves it agrees with `parseChars`
whenever the fuel is at least `length - value.length`, which the canonical
instantiation always is. -/
def parseCharsGo (data : List Nat) (length : Nat) :
    Nat → List Char → Nat → Except String (List Char)
  | 0, value, _ =>
      if value.length < length then
        .error "StringEncoder.parse does not terminate on this input"
      else .ok value
  | fuel + 1, value, i =>
      if value.length < length then
        match tryDecode data i with
        | none => .error "StringEncoder.parse does not terminate on this input"
        | some (c, c_len) =>
          if c = [] then .error "StringEncoder.parse does not terminate on this input"
          else parseCharsGo data length fuel (value ++ c) (i + c_len)
      else .ok value

/-- `StringEncoder.parse`: reads the VarInt prefix, checks the declared
length, then assembles characters with the trial-decode loop starting at
byte offset `0`.  The reported size is the prefix size plus the UTF-8 byte
length of the assembled string. -/
def parse (data : List Nat) : Except String (EncoderParseResult String) :=
  match VarIntEncoder.parse data with
  | .error e => .error e
  | .ok length =>
    if ¬(0 ≤ length.value ∧ length.value ≤ 32767) then
      .error s!"StringEncoder: Parsing error: Invalid length {length.value}"
    else
      match parseChars data length.value.toNat [] 0 with
      | .error e => .error e
      | .ok chars =>
        .ok { value := String.mk chars
              size := length.size + (utf8Encode (String.mk chars)).length }

/-- `StringEncoder.serialize`: requires a character count in `[1, 32767]`,
then emits `VarIntEncoder.serialize(length)` followed by the UTF-8 bytes. -/
def serialize (value : String) : Except String (List Nat) :=
  if ¬(1 ≤ value.length ∧ value.length ≤ 32767) then
    .error s!"StringEncoder: Serialization error: Invalid string length {value.length}"
  else
    match VarIntEncoder.serialize (value.length : Int) with
    | .error e => .error e
    | .ok bs => .ok (bs ++ utf8Encode value)

end StringEncoder

/-- `Identifier` from `data_types.py`. -/
structure Identifier where
  «namespace» : String
  name : String
deriving Repr, DecidableEq

/-- Characters admitted by the identifier pattern before the colon:
`[a-z0-9_\-.]`. -/
def isNamespaceChar (c : Char) : Bool :=
  ('a' ≤ c && c ≤ 'z') || ('0' ≤ c && c ≤ '9') || c == '_' || c == '-' || c == '.'

/-- Characters admitted by the identifier pattern after the colon:
`[a-z0-9_\-./]`. -/
def isNameChar (c : Char) : Bool :=
  isNamespaceChar c || c == '/'

/-- Whole-string match of `[a-z0-9_\-.]+:[a-z0-9_\-./]+`: a nonempty
namespace, a single colon, and a nonempty name.  Both character classes
exclude `:`, so the colon found by `takeWhile` is necessarily unique in a
matching string. -/
def identifierRegexCore (s : List Char) : Bool :=
  let ns := s.takeWhile (fun c => c ≠ ':')
  match s.dropWhile (fun c => c ≠ ':') with
  | [] => false
  | _ :: name => !ns.isEmpty && ns.all isNamespaceChar && !name.isEmpty && name.all isNameChar

/-- `re.match(r"^[a-z0-9_\-.]+:[a-z0-9_\-./]+$", s) is not None`: Python's
`$` also matches just before one trailing newline. -/
def identifierRegexMatch (s : List Char) : Bool :=
  identifierRegexCore s ||
    (s.getLast? == some (Char.ofNat 10) && identifierRegexCore s.dropLast)

namespace IdentifierEncoder

/-- `IdentifierEncoder.parse`: decode a string; when it contains no `:`,
prefix `minecraft:` and add 10 to the size; validate against the identifier
pattern (raising on failure); split at the colon (the pattern guarantees the
`split(":")` unpacking into exactly two parts succeeds). -/
def parse (data : List Nat) : Except String (EncoderParseResult Identifier) :=
  match StringEncoder.parse data with
  | .error e => .error e
  | .ok string =>
    let value :=
      if string.value.toList.contains ':' then string.value else "minecraft:" ++ string.value
    let size :=
      if string.value.toList.contains ':' then string.size else string.size + 10
    if identifierRegexMatch value.toList = false then
      .error s!"IdentifierEncoder: Parsing error: \x27{value}\x27 is not a valid identifier"
    else
      .ok { value := { «namespace» := String.mk (value.toList.takeWhile (fun c => c ≠ ':'))
                       name := String.mk ((value.toList.dropWhile (fun c => c ≠ ':')).tail) }
            size := size }

/-- `IdentifierEncoder.serialize`: encode `f"{namespace}:{name}"` through the
string codec. -/
def serialize (value : Identifier) : Except String (List Nat) :=
  StringEncoder.serialize (value.«namespace» ++ ":" ++ value.name)

end IdentifierEncoder

/-- `Position` from `data_types.py`. -/
structure Position where
  x : Int
  y : Int
  z : Int
deriving Repr, DecidableEq

namespace PositionEncoder

/-- `PositionEncoder.parse`: masked reads from overlapping byte windows of
the 8-byte buffer, exactly as in the source (`data[:4] & 0xffffffc0`,
`data[3:7] & 0xffffff0`, `data[6:8] & 0xfff`); size is always 8. -/
def parse (data : List Nat) : EncoderParseResult Position :=
  { value :=
      { x := pyAnd (intFromBytesSigned (data.take 4)) 0xffffffc0
        y := pyAnd (intFromBytesSigned ((data.drop 3).take 4)) 0xffffff0
        z := pyAnd (intFromBytesSigned ((data.drop 6).take 2)) 0xfff }
    size := 8 }

/-- `PositionEncoder.serialize`: `(x << 38 | y << 12 | z).to_bytes(8,
byteorder="big", signed=True)`. -/
def serialize (value : Position) : Except String (List Nat) :=
  intToBytesSigned 8 (pyOr (pyOr (pyShl value.x 38) (pyShl value.y 12)) value.z)

end PositionEncoder

/-! ## Theorems -/

theorem parseChars_eq_go_of_le (data : List Nat) (length : Nat) :
    ∀ fuel value i, length - value.length ≤ fuel →
      StringEncoder.parseChars data length value i =
        StringEncoder.parseCharsGo data length fuel value i := by
  intro fuel
  induction fuel with
  | zero =>
      intro value i h
      have hnl : ¬ value.length < length := by omega
      rw [StringEncoder.parseChars.eq_def, dif_neg hnl]
      simp [StringEncoder.parseCharsGo, hnl]
  | succ k ih =>
      intro value i h
      by_cases hlt : value.length < length
      · rw [StringEncoder.parseChars.eq_def, dif_pos hlt]
        cases h2 : StringEncoder.tryDecode data i with
        | none => simp [StringEncoder.parseCharsGo, hlt, h2]
        | some p =>
            obtain ⟨c, c_len⟩ := p
            by_cases hc : c = []
            · simp [StringEncoder.parseCharsGo, hlt, h2, hc]
            · simp only [h2, dif_neg hc]
              have hlen : 1 ≤ c.length := List.length_pos.mpr hc
              have hfuel : length - (value ++ c).length ≤ k := by
                simp only [List.length_append]
                omega
              rw [ih (value ++ c) (i + c_len) hfuel]
              simp [StringEncoder.parseCharsGo, hlt, h2, hc]
      · rw [StringEncoder.parseChars.eq_def, dif_neg hlt]
        simp [StringEncoder.parseCharsGo, hlt]

theorem parseChars_eq_parseCharsGo (data : List Nat) (length : Nat) (value : List Char) (i : Nat) :
    StringEncoder.parseChars data length value i =
      StringEncoder.parseCharsGo data length (length - value.length) value i :=
  parseChars_eq_go_of_le data length (length - value.length) value i (le_refl _)

/-! ### Evaluation lemmas for the byte level and the VarInt loops -/

theorem natFromBytesBE_singleton (b : Nat) : natFromBytesBE [b] = b := by
  simp [natFromBytesBE]

theorem byteParse_value (b : Nat) (t : List Nat) :
    (ByteEncoder.parse (b :: t)).value = intFromBytesSigned [b] := rfl

theorem intFromBytesSigned_lt {b : Nat} (h : b < 128) :
    intFromBytesSigned [b] = Int.ofNat b := by
  rw [intFromBytesSigned, natFromBytesBE_singleton]
  rw [if_pos (by simpa using h)]
  rfl

theorem intFromBytesSigned_ge {b : Nat} (h1 : 128 ≤ b) (h2 : b < 256) :
    intFromBytesSigned [b] = Int.negSucc (255 - b) := by
  rw [intFromBytesSigned, natFromBytesBE_singleton]
  rw [if_neg (by simpa using h1)]
  rw [Int.negSucc_eq]
  rw [show ((8 : Nat) * ([b] : List Nat).length) = 8 from rfl]
  push_cast [show b ≤ 255 from by omega]
  norm_num
  omega

theorem nat_land_128_eq_zero : ∀ b, b < 128 → b &&& 128 = 0 := by decide

theorem nat_cont_set : ∀ m, m < 128 → 128 &&& (128 ^^^ m) = 128 := by decide

theorem pyAnd_cont_clear {b : Nat} (h : b < 128) :
    pyAnd (intFromBytesSigned [b]) 128 = 0 := by
  rw [intFromBytesSigned_lt h]
  show Int.ofNat (b &&& 128) = 0
  rw [nat_land_128_eq_zero b h]
  rfl

theorem pyAnd_cont_set {b : Nat} (h1 : 128 ≤ b) (h2 : b < 256) :
    pyAnd (intFromBytesSigned [b]) 128 = 128 := by
  rw [intFromBytesSigned_ge h1 h2]
  show Int.ofNat (128 &&& (128 ^^^ (255 - b))) = 128
  rw [nat_cont_set (255 - b) (by omega)]
  rfl

theorem varIntParseGo_error :
    ∀ (n : Nat) (rest : List Nat), (∀ b ∈ rest, b < 256) →
      (∀ i, i < n + 1 → 128 ≤ rest.getD i 0) →
      ∀ (value : Int) (position size : Nat), 32 ≤ position + 7 * (n + 1) →
        VarIntEncoder.parseGo rest value position size =
          .error "VarIntEncoder: Parsing error: VarInt is too big" := by
  intro n
  induction n with
  | zero =>
      intro rest hb hc value position size hpos
      cases rest with
      | nil => exact absurd (hc 0 (by omega)) (by simp [List.getD])
      | cons b t =>
          have hb0 : 128 ≤ b := by simpa using hc 0 (by omega)
          have hb256 : b < 256 := hb b (List.mem_cons_self b t)
          simp only [VarIntEncoder.parseGo, byteParse_value, VarIntEncoder.CONTINUE_BIT,
            VarIntEncoder.SEGMENT_BITS]
          rw [if_neg (by rw [pyAnd_cont_set hb0 hb256]; decide)]
          rw [if_pos (by omega)]
  | succ k ih =>
      intro rest hb hc value position size hpos
      cases rest with
      | nil => exact absurd (hc 0 (by omega)) (by simp [List.getD])
      | cons b t =>
          have hb0 : 128 ≤ b := by simpa using hc 0 (by omega)
          have hb256 : b < 256 := hb b (List.mem_cons_self b t)
          simp only [VarIntEncoder.parseGo, byteParse_value, VarIntEncoder.CONTINUE_BIT,
            VarIntEncoder.SEGMENT_BITS]
          rw [if_neg (by rw [pyAnd_cont_set hb0 hb256]; decide)]
          by_cases h32 : 32 ≤ position + 7
          · rw [if_pos h32]
          · rw [if_neg h32]
            refine ih t (fun x hx => hb x (List.mem_cons_of_mem b hx)) ?_ _ _ _ (by omega)
            intro i hi
            simpa using hc (i + 1) (by omega)

theorem varIntParseGo_ok :
    ∀ (i : Nat) (rest : List Nat), (∀ b ∈ rest, b < 256) →
      rest.getD i 0 < 128 →
      ∀ (value : Int) (position size : Nat), position + 7 * i < 32 →
        ∃ r, VarIntEncoder.parseGo rest value position size = .ok r := by
  intro i
  induction i with
  | zero =>
      intro rest hb h0 value position size _
      cases rest with
      | nil => exact ⟨_, rfl⟩
      | cons b t =>
          have hb128 : b < 128 := by simpa using h0
          refine ⟨{ value := pyOr value (pyShl (pyAnd (intFromBytesSigned [b]) 127) position),
                    size := size }, ?_⟩
          simp only [VarIntEncoder.parseGo, byteParse_value, VarIntEncoder.CONTINUE_BIT,
            VarIntEncoder.SEGMENT_BITS]
          rw [if_pos (pyAnd_cont_clear hb128)]
  | succ k ih =>
      intro rest hb h0 value position size hpos
      cases rest with
      | nil => exact ⟨_, rfl⟩
      | cons b t =>
          by_cases hlt : b < 128
          · refine ⟨{ value := pyOr value (pyShl (pyAnd (intFromBytesSigned [b]) 127) position),
                      size := size }, ?_⟩
            simp only [VarIntEncoder.parseGo, byteParse_value, VarIntEncoder.CONTINUE_BIT,
              VarIntEncoder.SEGMENT_BITS]
            rw [if_pos (pyAnd_cont_clear hlt)]
          · have hb0 : 128 ≤ b := by omega
            have hb256 : b < 256 := hb b (List.mem_cons_self b t)
            have ht : t.getD k 0 < 128 := by simpa using h0
            obtain ⟨r, hr⟩ :=
              ih t (fun x hx => hb x (List.mem_cons_of_mem b hx)) ht
                (pyOr value (pyShl (pyAnd (intFromBytesSigned [b]) VarIntEncoder.SEGMENT_BITS) position))
                (position + 7) (size + 1) (by omega)
            refine ⟨r, ?_⟩
            simp only [VarIntEncoder.parseGo, byteParse_value, VarIntEncoder.CONTINUE_BIT,
              VarIntEncoder.SEGMENT_BITS]
            rw [if_neg (by rw [pyAnd_cont_set hb0 hb256]; decide)]
            rw [if_neg (by omega)]
            simpa [VarIntEncoder.SEGMENT_BITS] using hr

theorem varLongParseGo_error :
    ∀ (n : Nat) (rest : List Nat), (∀ b ∈ rest, b < 256) →
      (∀ i, i < n + 1 → 128 ≤ rest.getD i 0) →
      ∀ (value : Int) (position size : Nat), 64 ≤ position + 7 * (n + 1) →
        VarLongEncoder.parseGo rest value position size =
          .error "VarLongEncoder: Parsing error: VarLong is too big" := by
  intro n
  induction n with
  | zero =>
      intro rest hb hc value position size hpos
      cases rest with
      | nil => exact absurd (hc 0 (by omega)) (by simp [List.getD])
      | cons b t =>
          have hb0 : 128 ≤ b := by simpa using hc 0 (by omega)
          have hb256 : b < 256 := hb b (List.mem_cons_self b t)
          simp only [VarLongEncoder.parseGo, byteParse_value, VarLongEncoder.CONTINUE_BIT,
            VarLongEncoder.SEGMENT_BITS]
          rw [if_neg (by rw [pyAnd_cont_set hb0 hb256]; decide)]
          rw [if_pos (by omega)]
  | succ k ih =>
      intro rest hb hc value position size hpos
      cases rest with
      | nil => exact absurd (hc 0 (by omega)) (by simp [List.getD])
      | cons b t =>
          have hb0 : 128 ≤ b := by simpa using hc 0 (by omega)
          have hb256 : b < 256 := hb b (List.mem_cons_self b t)
          simp only [VarLongEncoder.parseGo, byteParse_value, VarLongEncoder.CONTINUE_BIT,
            VarLongEncoder.SEGMENT_BITS]
          rw [if_neg (by rw [pyAnd_cont_set hb0 hb256]; decide)]
          by_cases h64 : 64 ≤ position + 7
          · rw [if_pos h64]
          · rw [if_neg h64]
            refine ih t (fun x hx => hb x (List.mem_cons_of_mem b hx)) ?_ _ _ _ (by omega)
            intro i hi
            simpa using hc (i + 1) (by omega)

theorem varLongParseGo_ok :
    ∀ (i : Nat) (rest : List Nat), (∀ b ∈ rest, b < 256) →
      rest.getD i 0 < 128 →
      ∀ (value : Int) (position size : Nat), position + 7 * i < 64 →
        ∃ r, VarLongEncoder.parseGo rest value position size = .ok r := by
  intro i
  induction i with
  | zero =>
      intro rest hb h0 value position size _
      cases rest with
      | nil => exact ⟨_, rfl⟩
      | cons b t =>
          have hb128 : b < 128 := by simpa using h0
          refine ⟨{ value := pyOr value (pyShl (pyAnd (intFromBytesSigned [b]) 127) position),
                    size := size }, ?_⟩
          simp only [VarLongEncoder.parseGo, byteParse_value, VarLongEncoder.CONTINUE_BIT,
            VarLongEncoder.SEGMENT_BITS]
          rw [if_pos (pyAnd_cont_clear hb128)]
  | succ k ih =>
      intro rest hb h0 value position size hpos
      cases rest with
      | nil => exact ⟨_, rfl⟩
      | cons b t =>
          by_cases hlt : b < 128
          · refine ⟨{ value := pyOr value (pyShl (pyAnd (intFromBytesSigned [b]) 127) position),
                      size := size }, ?_⟩
            simp only [VarLongEncoder.parseGo, byteParse_value, VarLongEncoder.CONTINUE_BIT,
              VarLongEncoder.SEGMENT_BITS]
            rw [if_pos (pyAnd_cont_clear hlt)]
          · have hb0 : 128 ≤ b := by omega
            have hb256 : b < 256 := hb b (List.mem_cons_self b t)
            have ht : t.getD k 0 < 128 := by simpa using h0
            obtain ⟨r, hr⟩ :=
              ih t (fun x hx => hb x (List.mem_cons_of_mem b hx)) ht
                (pyOr value (pyShl (pyAnd (intFromBytesSigned [b]) VarLongEncoder.SEGMENT_BITS) position))
                (position + 7) (size + 1) (by omega)
            refine ⟨r, ?_⟩
            simp only [VarLongEncoder.parseGo, byteParse_value, VarLongEncoder.CONTINUE_BIT,
              VarLongEncoder.SEGMENT_BITS]
            rw [if_neg (by rw [pyAnd_cont_set hb0 hb256]; decide)]
            rw [if_neg (by omega)]
            simpa [VarLongEncoder.SEGMENT_BITS] using hr

/-- C7: VarInt `parse` of any byte string (of in-range bytes) whose
continuation bits stay set through the first six groups raises
OverflowError without returning a value, while any byte string whose
continuation run ends within the first five groups (a clear top bit, or the
buffer running out, which `ByteEncoder.parse` reads as `0`) parses without
raising; analogously for VarLong with eleven and ten groups. -/
theorem claim_C7_varint_varlong_overflow :
    (∀ data : List Nat, (∀ b ∈ data, b < 256) →
      (∀ i, i < 6 → 128 ≤ data.getD i 0) →
      VarIntEncoder.parse data = .error "VarIntEncoder: Parsing error: VarInt is too big") ∧
    (∀ data : List Nat, (∀ b ∈ data, b < 256) →
      (∃ i, i < 5 ∧ data.getD i 0 < 128) →
      ∃ r, VarIntEncoder.parse data = .ok r) ∧
    (∀ data : List Nat, (∀ b ∈ data, b < 256) →
      (∀ i, i < 11 → 128 ≤ data.getD i 0) →
      VarLongEncoder.parse data = .error "VarLongEncoder: Parsing error: VarLong is too big") ∧
    (∀ data : List Nat, (∀ b ∈ data, b < 256) →
      (∃ i, i < 10 ∧ data.getD i 0 < 128) →
      ∃ r, VarLongEncoder.parse data = .ok r) := by
  refine ⟨?_, ?_, ?_, ?_⟩
  · intro data hb hc
    exact varIntParseGo_error 4 data hb (fun i hi => hc i (by omega)) 0 0 0 (by omega)
  · rintro data hb ⟨i, hi, hclear⟩
    exact varIntParseGo_ok i data hb hclear 0 0 0 (by omega)
  · intro data hb hc
    exact varLongParseGo_error 9 data hb (fun i hi => hc i (by omega)) 0 0 0 (by omega)
  · rintro data hb ⟨i, hi, hclear⟩
    exact varLongParseGo_ok i data hb hclear 0 0 0 (by omega)

/-- Witness for C7 at concrete byte strings. -/
theorem claim_C7_witness :
    VarIntEncoder.parse [128, 128, 128, 128, 128, 128] =
        .error "VarIntEncoder: Parsing error: VarInt is too big" ∧
    (∃ r, VarIntEncoder.parse [128, 128, 128, 128, 0] = .ok r) ∧
    VarLongEncoder.parse [128, 128, 128, 128, 128, 128, 128, 128, 128, 128, 128] =
        .error "VarLongEncoder: Parsing error: VarLong is too big" ∧
    (∃ r, VarLongEncoder.parse [128, 128, 128, 128, 128, 128, 128, 128, 128, 0] = .ok r) := by
  obtain ⟨h1, h2, h3, h4⟩ := claim_C7_varint_varlong_overflow
  refine ⟨h1 _ (by decide) (by decide), h2 _ (by decide) ⟨4, by decide, by decide⟩,
    h3 _ (by decide) (by decide), h4 _ (by decide) ⟨9, by decide, by decide⟩⟩

theorem byteSerialize_of_le {v : Int} (h0 : 0 ≤ v) (h : v ≤ 127) :
    ByteEncoder.serialize v = .ok [v.toNat] := by
  unfold ByteEncoder.serialize intToBytesSigned
  rw [if_neg (by omega : ¬¬(-128 ≤ v ∧ v ≤ 127))]
  rw [show ((2:Int) ^ (8 * 1 - 1)) = 128 from by norm_num]
  rw [if_pos (by omega : -(128:Int) ≤ v ∧ v < 128)]
  have hemod : v.emod (2 ^ (8 * 1)) = v := by
    rw [show ((2:Int) ^ (8 * 1)) = 256 from by norm_num]
    exact Int.emod_eq_of_lt h0 (by omega)
  rw [hemod]
  simp only [natToBytesBE]
  rw [Nat.mod_eq_of_lt (by omega : v.toNat < 256)]
  rfl

theorem varIntSerialize_of_le {v : Int} (h0 : 0 ≤ v) (h : v ≤ 127) :
    VarIntEncoder.serialize v = .ok [v.toNat] := by
  unfold VarIntEncoder.serialize
  rw [VarIntEncoder.serializeGo.eq_def]
  have hz : pyAnd v (~~~VarIntEncoder.SEGMENT_BITS) = 0 := by
    rw [pyAnd_eq_land]
    exact int_land_not127_of_lt h0 (by omega)
  rw [dif_neg (by simp [hz])]
  rw [byteSerialize_of_le h0 h]
  rfl

/-- C1: VarInt serialize at the spec's boundary values.  `serialize 0` and
`serialize 127` produce the single bytes the spec lists, but every value
whose encoding needs a continuation byte raises, because the loop routes
bytes in `[128, 255]` through `ByteEncoder.serialize`, whose signed range
check rejects them; so `serialize 128`, `serialize 2147483647` and
`serialize 4294967295` all raise instead of producing the spec's multi-byte
encodings. -/
theorem claim_C1_varint_serialize_boundaries :
    VarIntEncoder.serialize 0 = .ok [0x00] ∧
    VarIntEncoder.serialize 127 = .ok [0x7F] ∧
    VarIntEncoder.serialize 128 =
      .error "ByteEncoder: Serialization error: 128 is not in range [-128, 127]" ∧
    VarIntEncoder.serialize 2147483647 =
      .error "ByteEncoder: Serialization error: 255 is not in range [-128, 127]" ∧
    VarIntEncoder.serialize 4294967295 =
      .error "ByteEncoder: Serialization error: 255 is not in range [-128, 127]" := by
  refine ⟨varIntSerialize_of_le (by norm_num) (by norm_num),
    varIntSerialize_of_le (by norm_num) (by norm_num), ?_, ?_, ?_⟩
  · unfold VarIntEncoder.serialize
    rw [VarIntEncoder.serializeGo.eq_def]
    rw [dif_pos (by decide : pyAnd (128:Int) (~~~VarIntEncoder.SEGMENT_BITS) ≠ 0)]
    decide
  · unfold VarIntEncoder.serialize
    rw [VarIntEncoder.serializeGo.eq_def]
    rw [dif_pos (by decide : pyAnd (2147483647:Int) (~~~VarIntEncoder.SEGMENT_BITS) ≠ 0)]
    decide
  · unfold VarIntEncoder.serialize
    rw [VarIntEncoder.serializeGo.eq_def]
    rw [dif_pos (by decide : pyAnd (4294967295:Int) (~~~VarIntEncoder.SEGMENT_BITS) ≠ 0)]
    decide

/-- C3: the reported `size` of VarInt/VarLong `parse` at the claim's
examples.  The loop increments `size` only when a continuation byte is seen,
so the terminating byte is never counted: `parse [0x00]` reports size 0 (the
claim expects 1) and `parse [0x80, 0x01]` reports size 1 (the claim
expects 2). -/
theorem claim_C3_varint_parse_size_off_by_one :
    VarIntEncoder.parse [0x00] = .ok { value := 0, size := 0 } ∧
    VarIntEncoder.parse [0x80, 0x01] = .ok { value := 128, size := 1 } ∧
    VarLongEncoder.parse [0x00] = .ok { value := 0, size := 0 } ∧
    VarLongEncoder.parse [0x80, 0x01] = .ok { value := 128, size := 1 } := by
  decide

/-- C4: Position round-trip evaluations.  `(0,0,0)` does round-trip and
`parse` always reports size 8, but the parse masks do not invert the
serialize shifts: `serialize` then `parse` of `(1,0,0)` yields `x = 64`
(the claim expects `x = 1`), and of `(0,0,-1)` yields
`(4294967232, 268435440, 4095)` (the claim expects `z = -1`). -/
theorem claim_C4_position_roundtrip_failure :
    PositionEncoder.serialize { x := 0, y := 0, z := 0 } = .ok [0, 0, 0, 0, 0, 0, 0, 0] ∧
    PositionEncoder.parse [0, 0, 0, 0, 0, 0, 0, 0] =
      { value := { x := 0, y := 0, z := 0 }, size := 8 } ∧
    PositionEncoder.serialize { x := 1, y := 0, z := 0 } = .ok [0, 0, 0, 0x40, 0, 0, 0, 0] ∧
    PositionEncoder.parse [0, 0, 0, 0x40, 0, 0, 0, 0] =
      { value := { x := 64, y := 0, z := 0 }, size := 8 } ∧
    (64 : Int) ≠ 1 ∧
    PositionEncoder.serialize { x := 0, y := 0, z := -1 } =
      .ok [255, 255, 255, 255, 255, 255, 255, 255] ∧
    PositionEncoder.parse [255, 255, 255, 255, 255, 255, 255, 255] =
      { value := { x := 4294967232, y := 268435440, z := 4095 }, size := 8 } ∧
    (4095 : Int) ≠ -1 := by
  decide

/-- C5: fixed-width round-trips at the claim's extremes.  Long round-trips
at both extremes and Short at `-32768`, but `ShortEncoder.serialize 32767`
raises RangeError because the source's range check reads `23767` where its
own error message reads `32767`, so the claimed round-trip at the Short
maximum is impossible. -/
theorem claim_C5_fixed_width_roundtrip :
    LongEncoder.serialize (-9223372036854775808) = .ok [0x80, 0, 0, 0, 0, 0, 0, 0] ∧
    LongEncoder.parse [0x80, 0, 0, 0, 0, 0, 0, 0] =
      { value := -9223372036854775808, size := 8 } ∧
    LongEncoder.serialize 9223372036854775807 =
      .ok [0x7F, 255, 255, 255, 255, 255, 255, 255] ∧
    LongEncoder.parse [0x7F, 255, 255, 255, 255, 255, 255, 255] =
      { value := 9223372036854775807, size := 8 } ∧
    ShortEncoder.serialize (-32768) = .ok [0x80, 0x00] ∧
    ShortEncoder.parse [0x80, 0x00] = { value := -32768, size := 2 } ∧
    ShortEncoder.serialize 32767 =
      .error "ShortEncoder: Serialization error: 32767 is not in range [-32768, 32767]" := by
  decide

/-- C6: `ShortEncoder.serialize` raises on `23768`, a value inside the
claimed range `[-32768, 32767]` (its error message even asserts that
range), succeeds on `23767` with the big-endian two's-complement bytes, and
raises below `-32768`; so the code's raise-boundary is `23767`, not the
claimed `32767`. -/
theorem claim_C6_short_serialize_range :
    ((-32768 : Int) ≤ 23768 ∧ (23768 : Int) ≤ 32767) ∧
    ShortEncoder.serialize 23768 =
      .error "ShortEncoder: Serialization error: 23768 is not in range [-32768, 32767]" ∧
    ShortEncoder.serialize 23767 = .ok [0x5C, 0xD7] ∧
    ShortEncoder.serialize (-32769) =
      .error "ShortEncoder: Serialization error: -32769 is not in range [-32768, 32767]" := by
  decide

/-- C9: `FloatEncoder.parse` succeeds on an exactly-4-byte encoding of
`1.0f` (bit pattern `0x3F800000`) but raises `struct.error` when a single
trailing byte is appended, because `struct.unpack(">f", data)` demands
exactly 4 bytes — contradicting the claim that trailing bytes are ignored.
The slice-based codecs do ignore trailing bytes, as the `ByteEncoder`
conjunct shows. -/
theorem claim_C9_float_parse_trailing_bytes :
    FloatEncoder.parse [0x3F, 0x80, 0x00, 0x00] = .ok { value := 0x3F800000, size := 4 } ∧
    FloatEncoder.parse [0x3F, 0x80, 0x00, 0x00, 0x00] =
      .error "struct.error: unpack requires a buffer of 4 bytes" ∧
    ByteEncoder.parse [0x7F, 0xAB, 0xCD] = { value := 127, size := 1 } := by
  decide

/-- C2: the String codec does not round-trip.  `serialize "a"` yields
`[0x01, 0x61]`, but `parse` starts its trial-decode loop at byte offset 0,
so it decodes the VarInt length prefix byte itself as the single requested
character and returns `"\x01"`, not `"a"`; the same happens for the 3-byte
UTF-8 string `"€"`.  `serialize ""` does raise LengthError as the spec
says. -/
theorem claim_C2_string_roundtrip_failure :
    StringEncoder.serialize "a" = .ok [0x01, 0x61] ∧
    StringEncoder.parse [0x01, 0x61] = .ok { value := "\x01", size := 1 } ∧
    ("\x01" : String) ≠ "a" ∧
    StringEncoder.serialize "€" = .ok [0x01, 0xE2, 0x82, 0xAC] ∧
    StringEncoder.parse [0x01, 0xE2, 0x82, 0xAC] = .ok { value := "\x01", size := 1 } ∧
    ("\x01" : String) ≠ "€" ∧
    StringEncoder.serialize "" =
      .error "StringEncoder: Serialization error: Invalid string length 0" := by
  refine ⟨?_, ?_, by decide, ?_, ?_, by decide, by decide⟩
  · unfold StringEncoder.serialize
    rw [if_neg (by decide)]
    rw [show ((("a" : String).length : Nat) : Int) = 1 from by decide]
    rw [varIntSerialize_of_le (by norm_num) (by norm_num)]
    decide
  · unfold StringEncoder.parse
    rw [show VarIntEncoder.parse [0x01, 0x61] = .ok { value := 1, size := 0 } from by decide]
    dsimp only
    rw [if_neg (by decide), parseChars_eq_parseCharsGo]
    decide
  · unfold StringEncoder.serialize
    rw [if_neg (by decide)]
    rw [show ((("€" : String).length : Nat) : Int) = 1 from by decide]
    rw [varIntSerialize_of_le (by norm_num) (by norm_num)]
    decide
  · unfold StringEncoder.parse
    rw [show VarIntEncoder.parse [0x01, 0xE2, 0x82, 0xAC] = .ok { value := 1, size := 0 } from by
      decide]
    dsimp only
    rw [if_neg (by decide), parseChars_eq_parseCharsGo]
    decide

theorem stringParse_stone :
    StringEncoder.parse [5, 115, 116, 111, 110, 101] =
      .ok { value := "\x05ston", size := 5 } := by
  unfold StringEncoder.parse
  rw [show VarIntEncoder.parse [5, 115, 116, 111, 110, 101] = .ok { value := 5, size := 0 } from by
    decide]
  dsimp only
  rw [if_neg (by decide), parseChars_eq_parseCharsGo]
  decide

theorem stringParse_foobar :
    StringEncoder.parse [7, 70, 79, 79, 58, 98, 97, 114] =
      .ok { value := "\x07FOO:ba", size := 7 } := by
  unfold StringEncoder.parse
  rw [show VarIntEncoder.parse [7, 70, 79, 79, 58, 98, 97, 114] =
      .ok { value := 7, size := 0 } from by decide]
  dsimp only
  rw [if_neg (by decide), parseChars_eq_parseCharsGo]
  decide

/-- C8: Identifier `parse` of the encoding of `"stone"` does not yield
`Identifier("minecraft", "stone")`: the string layer decodes the prefix
byte as content, giving `"\x05ston"`, whose `minecraft:`-prefixed form
fails the identifier pattern, so `parse` raises FormatError instead.  The
encoding of `"FOO:bar"` also raises FormatError (as the claim expects,
albeit for the decoded string `"\x07FOO:ba"`). -/
theorem claim_C8_identifier_parse :
    StringEncoder.serialize "stone" = .ok [5, 115, 116, 111, 110, 101] ∧
    IdentifierEncoder.parse [5, 115, 116, 111, 110, 101] =
      .error "IdentifierEncoder: Parsing error: \x27minecraft:\x05ston\x27 is not a valid identifier" ∧
    StringEncoder.serialize "FOO:bar" = .ok [7, 70, 79, 79, 58, 98, 97, 114] ∧
    IdentifierEncoder.parse [7, 70, 79, 79, 58, 98, 97, 114] =
      .error "IdentifierEncoder: Parsing error: \x27\x07FOO:ba\x27 is not a valid identifier" := by
  refine ⟨?_, ?_, ?_, ?_⟩
  · unfold StringEncoder.serialize
    rw [if_neg (by decide)]
    rw [show ((("stone" : String).length : Nat) : Int) = 5 from by decide]
    rw [varIntSerialize_of_le (by norm_num) (by norm_num)]
    decide
  · unfold IdentifierEncoder.parse
    rw [stringParse_stone]
    decide
  · unfold StringEncoder.serialize
    rw [if_neg (by decide)]
    rw [show ((("FOO:bar" : String).length : Nat) : Int) = 7 from by decide]
    rw [varIntSerialize_of_le (by norm_num) (by norm_num)]
    decide
  · unfold IdentifierEncoder.parse
    rw [stringParse_foobar]
    decide

/-- C10: the slice-based fixed-width codecs parse buffers shorter than
their width without raising: the value is decoded from exactly the bytes
present (`data.take k = data`), and the reported size is still the full
fixed width.  With the empty buffer the decoded integer is `0`, as the
witness shows. -/
theorem claim_C10_short_buffer_parse :
    (∀ data : List Nat, data.length < 1 →
      ByteEncoder.parse data = { value := intFromBytesSigned data, size := 1 } ∧
      UnsignedByteEncoder.parse data = { value := (natFromBytesBE data : Int), size := 1 }) ∧
    (∀ data : List Nat, data.length < 2 →
      ShortEncoder.parse data = { value := intFromBytesSigned data, size := 2 } ∧
      UnsignedShortEncoder.parse data = { value := (natFromBytesBE data : Int), size := 2 }) ∧
    (∀ data : List Nat, data.length < 4 →
      IntEncoder.parse data = { value := intFromBytesSigned data, size := 4 }) ∧
    (∀ data : List Nat, data.length < 8 →
      LongEncoder.parse data = { value := intFromBytesSigned data, size := 8 }) := by
  refine ⟨fun data h => ⟨?_, ?_⟩, fun data h => ⟨?_, ?_⟩, fun data h => ?_, fun data h => ?_⟩
  · rw [ByteEncoder.parse, List.take_of_length_le (by omega : data.length ≤ 1)]
  · rw [UnsignedByteEncoder.parse, List.take_of_length_le (by omega : data.length ≤ 1)]
  · rw [ShortEncoder.parse, List.take_of_length_le (by omega : data.length ≤ 2)]
  · rw [UnsignedShortEncoder.parse, List.take_of_length_le (by omega : data.length ≤ 2)]
  · rw [IntEncoder.parse, List.take_of_length_le (by omega : data.length ≤ 4)]
  · rw [LongEncoder.parse, List.take_of_length_le (by omega : data.length ≤ 8)]

/-- Witness for C10 at concrete short buffers, including the empty buffer. -/
theorem claim_C10_witness :
    ShortEncoder.parse [171] = { value := -85, size := 2 } ∧
    UnsignedShortEncoder.parse [171] = { value := 171, size := 2 } ∧
    IntEncoder.parse [1, 2] = { value := 258, size := 4 } ∧
    LongEncoder.parse [255] = { value := -1, size := 8 } ∧
    ByteEncoder.parse [] = { value := 0, size := 1 } ∧
    UnsignedByteEncoder.parse [] = { value := 0, size := 1 } := by
  obtain ⟨hB, hS, hI, hL⟩ := claim_C10_short_buffer_parse
  refine ⟨((hS [171] (by decide)).1).trans (by decide),
    ((hS [171] (by decide)).2).trans (by decide),
    (hI [1, 2] (by decide)).trans (by decide),
    (hL [255] (by decide)).trans (by decide),
    ((hB [] (by decide)).1).trans (by decide),
    ((hB [] (by decide)).2).trans (by decide)⟩
